import Mathlib

/-!
Verification of the MGV NVM image injection tool
(`resources/mgv_imc_image_injection.py`) against its design specification.

The tool reads a firmware image, follows a chain of stored pointers and
size fields to locate an embedded payload, and writes a new image in which
that payload is replaced by externally supplied content.

Embedding notes:
* An image (a binary file) is a `List Nat` of its bytes in order.
* `file.seek(off); file.read(sz)` returns the available bytes in
  `[off, min (off+sz) len)` — shorter than `sz` near the end of the file and
  empty past it — so it is embedded as `take sz (drop off)`.
* `int.from_bytes(_, 'little')` is `fromLEBytes`; `x.to_bytes(4, 'little')`
  is `toLEBytes 4 x`; `math.ceil(n / 2)` on naturals is `(n + 1) / 2`.
-/

namespace Mgv

/-- Bytes returned by `file.seek(off); file.read(sz)` on a file whose
content is `img`. -/
def readBytes (img : List Nat) (off sz : Nat) : List Nat :=
  List.take sz (List.drop off img)

/-- Little-endian decoding of a byte list, as `int.from_bytes(data, 'little')`. -/
def fromLEBytes : List Nat → Nat
  | [] => 0
  | b :: bs => b + 256 * fromLEBytes bs

/-- Little-endian encoding of `n` in `k` bytes, as `n.to_bytes(k, 'little')`. -/
def toLEBytes : Nat → Nat → List Nat
  | 0, _ => []
  | k + 1, n => n % 256 :: toLEBytes k (n / 256)

/-- `read_field(file_path, offset, size, endian='little')`: seek to `offset`,
read `size` bytes, decode little-endian.  A read past the end of the file
decodes whatever bytes are actually available. -/
def read_field (img : List Nat) (off sz : Nat) : Nat :=
  fromLEBytes (readBytes img off sz)

/-- `WORDS_TO_BYTES(address)`: word offsets are converted to byte offsets
by doubling. -/
def WORDS_TO_BYTES (address : Nat) : Nat :=
  address * 2

/-- `UBOOT_high_ptr_words = 0x000038EA`. -/
def UBOOT_high_ptr_words : Nat := 0x38EA

/-- `UBOOT_low_ptr_words = 0x000038E9`. -/
def UBOOT_low_ptr_words : Nat := 0x38E9

/-- `inner_nvm_section_offset = 0x3800` (active_bank_addr), a word offset. -/
def inner_nvm_section_offset : Nat := 0x3800

/-- `UBOOT_high = read_field(image_path, UBOOT_high_ptr_address, 2)`. -/
def UBOOT_high (img : List Nat) : Nat :=
  read_field img (WORDS_TO_BYTES UBOOT_high_ptr_words) 2

/-- `UBOOT_low = read_field(image_path, UBOOT_low_ptr_address, 2)`. -/
def UBOOT_low (img : List Nat) : Nat :=
  read_field img (WORDS_TO_BYTES UBOOT_low_ptr_words) 2

/-- `UBOOT_pointer_address = WORDS_TO_BYTES((UBOOT_high << 16) + UBOOT_low +
inner_nvm_section_offset)`. -/
def UBOOT_pointer_address (img : List Nat) : Nat :=
  WORDS_TO_BYTES ((UBOOT_high img <<< 16) + UBOOT_low img + inner_nvm_section_offset)

/-- `size = WORDS_TO_BYTES(read_field(image_path, UBOOT_pointer_address, 4))`
(the BL31 size, in bytes). -/
def size (img : List Nat) : Nat :=
  WORDS_TO_BYTES (read_field img (UBOOT_pointer_address img) 4)

/-- `u_boot_pointer_address = UBOOT_pointer_address + size + 4 + 4`. -/
def u_boot_pointer_address (img : List Nat) : Nat :=
  UBOOT_pointer_address img + size img + 4 + 4

/-- `bl3_size = WORDS_TO_BYTES(read_field(image_path, u_boot_pointer_address, 4))`. -/
def bl3_size (img : List Nat) : Nat :=
  WORDS_TO_BYTES (read_field img (u_boot_pointer_address img) 4)

/-- `zephyr_size_pointer = u_boot_pointer_address + 4 + bl3_size` — the byte
offset of the second payload's size header, the injection point. -/
def zephyr_size_pointer (img : List Nat) : Nat :=
  u_boot_pointer_address img + 4 + bl3_size img

/-- `zephyr_size = WORDS_TO_BYTES(read_field(image_path, zephyr_size_pointer, 4))`. -/
def zephyr_size (img : List Nat) : Nat :=
  WORDS_TO_BYTES (read_field img (zephyr_size_pointer img) 4)

/-- `zephyr_actual_offset = zephyr_size_pointer + 4` — the byte offset of the
second payload's data. -/
def zephyr_actual_offset (img : List Nat) : Nat :=
  zephyr_size_pointer img + 4

/-- The output composition of `main` (lines 71–77): copy the first
`zephyr_size_pointer` bytes, write the 4-byte little-endian header
`ceil(len(P)/2)`, write the replacement payload `P`, then seek the original
to `zephyr_actual_offset + len(P)` and copy everything from there on. -/
def compose_output (img P : List Nat) : List Nat :=
  List.take (zephyr_size_pointer img) img
    ++ toLEBytes 4 ((P.length + 1) / 2)
    ++ P
    ++ List.drop (zephyr_actual_offset img + P.length) img

/-- An image is a list of bytes: every element is below 256. -/
def isImage (img : List Nat) : Prop :=
  ∀ b ∈ img, b < 256

/-! ### Spec-side transcription of the §4.2 pointer-chain algorithm

These definitions transcribe the specification's resolver algorithm word for
word; claim C2 compares them with the code-derived definitions above. -/

/-- Spec §4.2 step 1: `ptr_high`, a 2-byte field at the high word offset
converted to a byte offset. -/
def ptr_high (img : List Nat) : Nat :=
  read_field img (WORDS_TO_BYTES UBOOT_high_ptr_words) 2

/-- Spec §4.2 step 1: `ptr_low`, a 2-byte field at the low word offset
converted to a byte offset. -/
def ptr_low (img : List Nat) : Nat :=
  read_field img (WORDS_TO_BYTES UBOOT_low_ptr_words) 2

/-- Spec §4.2 step 2: `combined_ptr_words = (ptr_high << 16) + ptr_low +
inner_section_offset_words`. -/
def combined_ptr_words (img : List Nat) : Nat :=
  (ptr_high img <<< 16) + ptr_low img + inner_nvm_section_offset

/-- Spec §4.2 step 2: `size_field_offset`, the combined word pointer converted
to a byte offset. -/
def size_field_offset (img : List Nat) : Nat :=
  WORDS_TO_BYTES (combined_ptr_words img)

/-- Spec §4.2 step 3: `first_blob_size`, the 4-byte field at
`size_field_offset`, converted word→byte. -/
def first_blob_size (img : List Nat) : Nat :=
  WORDS_TO_BYTES (read_field img (size_field_offset img) 4)

/-- Spec §4.2 step 4: `payload_pair_offset = size_field_offset +
first_blob_size + 8`. -/
def payload_pair_offset (img : List Nat) : Nat :=
  size_field_offset img + first_blob_size img + 8

/-- Spec §4.2 step 5: `payload1_size`, the 4-byte field at
`payload_pair_offset`, converted word→byte. -/
def payload1_size (img : List Nat) : Nat :=
  WORDS_TO_BYTES (read_field img (payload_pair_offset img) 4)

/-- Spec §4.2 step 6: `injection_point = payload_pair_offset + 4 +
payload1_size`. -/
def injection_point (img : List Nat) : Nat :=
  payload_pair_offset img + 4 + payload1_size img

/-- Spec §4.2 step 7: `payload2_size`, the 4-byte field at `injection_point`,
converted word→byte. -/
def payload2_size (img : List Nat) : Nat :=
  WORDS_TO_BYTES (read_field img (injection_point img) 4)

/-- Spec §4.2 step 8: `old_payload_end = injection_point + 4 +
payload2_size`. -/
def old_payload_end (img : List Nat) : Nat :=
  injection_point img + 4 + payload2_size img

/-- Spec §4.1 transcription: `read_field` "fails with a BoundsError if
`byte_offset + width > len(image)`", otherwise returns the little-endian
decode of the `width` bytes at `byte_offset`.  Failure is `none`. -/
def read_field_spec (img : List Nat) (off sz : Nat) : Option Nat :=
  if off + sz ≤ img.length then some (fromLEBytes (readBytes img off sz)) else none

/-! ### Helper lemmas -/

theorem toLEBytes_length (k n : Nat) : (toLEBytes k n).length = k := by
  induction k generalizing n with
  | zero => rfl
  | succ k ih => simp [toLEBytes, ih]

theorem fromLEBytes_replicate_zero (k : Nat) :
    fromLEBytes (List.replicate k 0) = 0 := by
  induction k with
  | zero => rfl
  | succ k ih => simp [List.replicate_succ, fromLEBytes, ih]

theorem readBytes_replicate (n off sz : Nat) :
    readBytes (List.replicate n 0) off sz = List.replicate (min sz (n - off)) 0 := by
  simp [readBytes, List.drop_replicate, List.take_replicate]

theorem read_field_replicate (n off sz : Nat) :
    read_field (List.replicate n 0) off sz = 0 := by
  simp [read_field, readBytes_replicate, fromLEBytes_replicate_zero]

theorem read_field_of_length_le (img : List Nat) (off sz : Nat)
    (h : img.length ≤ off) : read_field img off sz = 0 := by
  simp [read_field, readBytes, List.drop_eq_nil_of_le h, fromLEBytes]

theorem toLEBytes_fromLEBytes (bs : List Nat) (h : ∀ b ∈ bs, b < 256) :
    toLEBytes bs.length (fromLEBytes bs) = bs := by
  induction bs with
  | nil => rfl
  | cons b bs ih =>
    have hb : b < 256 := h b (List.mem_cons_self b bs)
    have hmod : (b + 256 * fromLEBytes bs) % 256 = b := by
      rw [Nat.add_mul_mod_self_left, Nat.mod_eq_of_lt hb]
    have hdiv : (b + 256 * fromLEBytes bs) / 256 = fromLEBytes bs := by
      rw [Nat.add_mul_div_left _ _ (by norm_num : (0:Nat) < 256),
        Nat.div_eq_of_lt hb, Nat.zero_add]
    simp only [List.length_cons, fromLEBytes, toLEBytes, hmod, hdiv]
    rw [ih (fun x hx => h x (List.mem_cons_of_mem b hx))]

theorem compose_output_length (img P : List Nat) :
    (compose_output img P).length =
      min (zephyr_size_pointer img) img.length + 4 + P.length
        + (img.length - (zephyr_size_pointer img + 4 + P.length)) := by
  simp [compose_output, toLEBytes_length, zephyr_actual_offset]
  omega

/-- The code-side pointer chain coincides with the spec-side transcription,
step for step. -/
theorem spec_chain_eq (img : List Nat) :
    size_field_offset img = UBOOT_pointer_address img ∧
    first_blob_size img = size img ∧
    payload_pair_offset img = u_boot_pointer_address img ∧
    payload1_size img = bl3_size img ∧
    injection_point img = zephyr_size_pointer img ∧
    payload2_size img = zephyr_size img ∧
    old_payload_end img = zephyr_actual_offset img + zephyr_size img := by
  have h1 : size_field_offset img = UBOOT_pointer_address img := by
    simp [size_field_offset, combined_ptr_words, ptr_high, ptr_low,
      UBOOT_pointer_address, UBOOT_high, UBOOT_low]
  have h2 : first_blob_size img = size img := by
    rw [first_blob_size, size, h1]
  have h3 : payload_pair_offset img = u_boot_pointer_address img := by
    rw [payload_pair_offset, u_boot_pointer_address, h1, h2]
  have h4 : payload1_size img = bl3_size img := by
    rw [payload1_size, bl3_size, h3]
  have h5 : injection_point img = zephyr_size_pointer img := by
    rw [injection_point, zephyr_size_pointer, h3, h4]
  have h6 : payload2_size img = zephyr_size img := by
    rw [payload2_size, zephyr_size, h5]
  have h7 : old_payload_end img = zephyr_actual_offset img + zephyr_size img := by
    rw [old_payload_end, zephyr_actual_offset, h5, h6]
  exact ⟨h1, h2, h3, h4, h5, h6, h7⟩

/-! Values of the pointer chain on an all-zero image: every read returns 0,
so the chain lands at fixed offsets (`2 * 0x3800 = 28672`, and so on). -/

theorem UBOOT_pointer_address_replicate (n : Nat) :
    UBOOT_pointer_address (List.replicate n 0) = 28672 := by
  simp [UBOOT_pointer_address, UBOOT_high, UBOOT_low, read_field_replicate,
    WORDS_TO_BYTES, inner_nvm_section_offset]

theorem zephyr_size_pointer_replicate (n : Nat) :
    zephyr_size_pointer (List.replicate n 0) = 28684 := by
  simp [zephyr_size_pointer, u_boot_pointer_address, bl3_size, size,
    read_field_replicate, UBOOT_pointer_address_replicate, WORDS_TO_BYTES]

theorem zephyr_size_replicate (n : Nat) :
    zephyr_size (List.replicate n 0) = 0 := by
  simp [zephyr_size, read_field_replicate, WORDS_TO_BYTES]

theorem zephyr_actual_offset_replicate (n : Nat) :
    zephyr_actual_offset (List.replicate n 0) = 28688 := by
  simp [zephyr_actual_offset, zephyr_size_pointer_replicate]

theorem injection_point_replicate (n : Nat) :
    injection_point (List.replicate n 0) = 28684 := by
  rw [(spec_chain_eq (List.replicate n 0)).2.2.2.2.1, zephyr_size_pointer_replicate]

theorem old_payload_end_replicate (n : Nat) :
    old_payload_end (List.replicate n 0) = 28688 := by
  rw [(spec_chain_eq (List.replicate n 0)).2.2.2.2.2.2,
    zephyr_actual_offset_replicate, zephyr_size_replicate]

theorem isImage_replicate_zero (n : Nat) : isImage (List.replicate n 0) := by
  intro b hb
  rw [List.eq_of_mem_replicate hb]
  norm_num

theorem toLEBytes_fromLEBytes' (k : Nat) (bs : List Nat) (hlen : bs.length = k)
    (h : ∀ b ∈ bs, b < 256) : toLEBytes k (fromLEBytes bs) = bs := by
  rw [← hlen]
  exact toLEBytes_fromLEBytes bs h

/-! ### The claims -/

/-- C1 (counterexample): on the all-zero 28690-byte image with the 1-byte
replacement payload `[9]`, the output's bytes after the replaced region are
not `I[old_payload_end:]` — the trailing copy resumed at
`injection_point + 4 + len(P) = 28689`, not at `old_payload_end = 28688`. -/
theorem trailing_from_old_payload_end_cex :
    List.drop (injection_point (List.replicate 28690 0) + 4 + List.length [(9:Nat)])
        (compose_output (List.replicate 28690 0) [9])
      ≠ List.drop (old_payload_end (List.replicate 28690 0)) (List.replicate 28690 0) := by
  intro h
  have hlen := congrArg List.length h
  rw [List.length_drop, List.length_drop, compose_output_length,
    injection_point_replicate, old_payload_end_replicate,
    zephyr_size_pointer_replicate, List.length_replicate] at hlen
  norm_num at hlen

/-- C1 (amended): for every input image and replacement payload, the output's
bytes after the replaced region equal the input's bytes from the
length-determined offset: `output[injection_point+4+len(P):] ==
I[injection_point+4+len(P):]`; the trailing copy resumes at
`injection_point + 4 + len(P)`, not at `old_payload_end`. -/
theorem trailing_resumes_at_payload_length (img P : List Nat) :
    List.drop (zephyr_size_pointer img + 4 + P.length) (compose_output img P)
      = List.drop (zephyr_size_pointer img + 4 + P.length) img := by
  by_cases h : zephyr_size_pointer img ≤ img.length
  · unfold compose_output zephyr_actual_offset
    rw [List.drop_left']
    rw [List.length_append, List.length_append, List.length_take, toLEBytes_length]
    omega
  · push_neg at h
    have h1 : img.length ≤ zephyr_size_pointer img + 4 + P.length := by omega
    rw [List.drop_eq_nil_of_le h1]
    apply List.drop_eq_nil_of_le
    rw [compose_output_length]
    omega

/-- C2: the resolver computes `injection_point` and `old_payload_end` exactly
by the specified algorithm — every step of the spec's §4.2 chain
(`size_field_offset`, `first_blob_size`, `payload_pair_offset`,
`payload1_size`, `injection_point`, `payload2_size`, `old_payload_end`)
coincides with the corresponding value computed by the code. -/
theorem resolver_follows_spec_algorithm (img : List Nat) :
    size_field_offset img = UBOOT_pointer_address img ∧
    first_blob_size img = size img ∧
    payload_pair_offset img = u_boot_pointer_address img ∧
    payload1_size img = bl3_size img ∧
    injection_point img = zephyr_size_pointer img ∧
    payload2_size img = zephyr_size img ∧
    old_payload_end img = zephyr_actual_offset img + zephyr_size img :=
  spec_chain_eq img

/-- C3 (counterexample): on the all-zero 28690-byte image with payload `[9]`,
the output's length is 28690, not
`injection_point + 4 + len(P) + (len(I) - old_payload_end) = 28691`. -/
theorem output_length_formula_cex :
    (compose_output (List.replicate 28690 0) [9]).length
      ≠ injection_point (List.replicate 28690 0) + 4 + List.length [(9:Nat)]
          + ((List.replicate 28690 (0:Nat)).length
              - old_payload_end (List.replicate 28690 0)) := by
  rw [compose_output_length, injection_point_replicate, old_payload_end_replicate,
    zephyr_size_pointer_replicate, List.length_replicate]
  norm_num

/-- C3 (amended): for every input image `I` and replacement payload `P`,
`len(output) = min(injection_point, len(I)) + 4 + len(P) +
(len(I) - (injection_point + 4 + len(P)))` (truncated subtraction): the
trailing segment's length is governed by `len(P)`, not by `old_payload_end`,
so the total length equals `len(I)` whenever the replaced region fits. -/
theorem output_length_formula (img P : List Nat) :
    (compose_output img P).length
      = min (injection_point img) img.length + 4 + P.length
          + (img.length - (injection_point img + 4 + P.length)) := by
  rw [(spec_chain_eq img).2.2.2.2.1, compose_output_length]

/-- C4 (counterexample): reading 2 bytes at offset 0 of the 1-byte image
`[0]` exceeds the image bounds, the spec-side `read_field_spec` therefore
fails (`none`), but the code's `read_field` does not fail — it returns 0. -/
theorem read_field_bounds_error_cex :
    List.length [(0:Nat)] < 0 + 2 ∧
    read_field_spec [0] 0 2 = none ∧
    read_field [0] 0 2 = 0 := by
  decide

/-- C4 (amended): `read_field` never fails: a read whose end lands exactly at
`len(image)` returns exactly `width` bytes, and a read with
`byte_offset + width > len(image)` raises no error and returns the
little-endian decode of only the bytes available in
`[byte_offset, len(image))`. -/
theorem read_field_total_boundary (img : List Nat) (off sz : Nat) :
    (off + sz ≤ img.length → (readBytes img off sz).length = sz) ∧
    (img.length < off + sz →
      read_field img off sz = fromLEBytes (List.drop off img)) := by
  constructor
  · intro h
    rw [readBytes, List.length_take, List.length_drop]
    omega
  · intro h
    rw [read_field, readBytes, List.take_of_length_le]
    rw [List.length_drop]
    omega

/-- Witness for C4's amended theorem: on the image `[7, 8]`, the read of
width 2 at offset 0 ends exactly at the image's length and returns 2 bytes,
while the read of width 2 at offset 1 overruns by one byte and returns the
decode of the single available byte. -/
theorem read_field_total_boundary_witness :
    (0 + 2 ≤ List.length [(7:Nat), 8] ∧ (readBytes [7, 8] 0 2).length = 2) ∧
    (List.length [(7:Nat), 8] < 1 + 2 ∧
      read_field [7, 8] 1 2 = fromLEBytes (List.drop 1 [7, 8])) :=
  ⟨⟨by decide, (read_field_total_boundary [7, 8] 0 2).1 (by decide)⟩,
   ⟨by decide, (read_field_total_boundary [7, 8] 1 2).2 (by decide)⟩⟩

/-- C5: the 4-byte little-endian size header written at the injection point
encodes `ceil(len(P)/2)` (in naturals, `(len(P) + 1) / 2`); for even `len(P)`
this equals `len(P) / 2`. -/
theorem header_encodes_ceil_half (img P : List Nat)
    (h : zephyr_size_pointer img ≤ img.length) :
    List.take 4 (List.drop (zephyr_size_pointer img) (compose_output img P))
        = toLEBytes 4 ((P.length + 1) / 2) ∧
      (P.length % 2 = 0 → (P.length + 1) / 2 = P.length / 2) := by
  constructor
  · unfold compose_output
    rw [List.append_assoc, List.append_assoc, List.drop_left', List.take_left']
    · exact toLEBytes_length 4 _
    · rw [List.length_take]
      omega
  · intro h2
    omega

/-- Witness for C5: on the all-zero 28690-byte image with the 7-byte payload
`[1,2,3,4,5,6,7]`, the header bytes at the injection point encode
`ceil(7/2) = 4`. -/
theorem header_encodes_ceil_half_witness :
    zephyr_size_pointer (List.replicate 28690 0)
        ≤ (List.replicate 28690 (0:Nat)).length ∧
    (List.take 4 (List.drop (zephyr_size_pointer (List.replicate 28690 0))
          (compose_output (List.replicate 28690 0) [1, 2, 3, 4, 5, 6, 7]))
        = toLEBytes 4 ((List.length [(1:Nat), 2, 3, 4, 5, 6, 7] + 1) / 2) ∧
      (List.length [(1:Nat), 2, 3, 4, 5, 6, 7] % 2 = 0 →
        (List.length [(1:Nat), 2, 3, 4, 5, 6, 7] + 1) / 2
          = List.length [(1:Nat), 2, 3, 4, 5, 6, 7] / 2)) :=
  have h : zephyr_size_pointer (List.replicate 28690 (0:Nat))
      ≤ (List.replicate 28690 (0:Nat)).length := by
    rw [zephyr_size_pointer_replicate, List.length_replicate]
    norm_num
  ⟨h, header_encodes_ceil_half _ _ h⟩

/-- C6: round-trip — when the replacement payload is exactly the original
payload bytes `I[injection_point+4 : old_payload_end]` and the chain is in
bounds, the composed output is byte-identical to the input image. -/
theorem roundtrip_restores_input (img : List Nat) (him : isImage img)
    (h : old_payload_end img ≤ img.length) :
    compose_output img
        (List.take (old_payload_end img - (injection_point img + 4))
          (List.drop (injection_point img + 4) img))
      = img := by
  obtain ⟨-, -, -, -, h5, -, h7⟩ := spec_chain_eq img
  have hope : old_payload_end img
      = zephyr_size_pointer img + 4 + zephyr_size img := by
    rw [h7, zephyr_actual_offset]
  have hdiff : old_payload_end img - (injection_point img + 4)
      = zephyr_size img := by
    rw [h5, hope]
    omega
  have hb : zephyr_size_pointer img + 4 + zephyr_size img ≤ img.length := by
    omega
  rw [hdiff, h5]
  have hP : (List.take (zephyr_size img)
      (List.drop (zephyr_size_pointer img + 4) img)).length = zephyr_size img := by
    rw [List.length_take, List.length_drop]
    omega
  unfold compose_output zephyr_actual_offset
  rw [hP]
  have hw : zephyr_size img = 2 * read_field img (zephyr_size_pointer img) 4 := by
    rw [zephyr_size, WORDS_TO_BYTES]
    ring
  have hhv : (zephyr_size img + 1) / 2 = read_field img (zephyr_size_pointer img) 4 := by
    rw [hw]
    omega
  have hbs4 : (List.take 4 (List.drop (zephyr_size_pointer img) img)).length = 4 := by
    rw [List.length_take, List.length_drop]
    omega
  have hmem : ∀ b ∈ List.take 4 (List.drop (zephyr_size_pointer img) img), b < 256 :=
    fun b hb' => him b (List.mem_of_mem_drop (List.mem_of_mem_take hb'))
  have hhead : toLEBytes 4 ((zephyr_size img + 1) / 2)
      = List.take 4 (List.drop (zephyr_size_pointer img) img) := by
    rw [hhv]
    exact toLEBytes_fromLEBytes' 4 _ hbs4 hmem
  rw [hhead, ← List.take_add, ← List.take_add]
  exact List.take_append_drop _ img

/-- Witness for C6: the round-trip holds on the all-zero 28690-byte image,
whose resolved original payload is empty. -/
theorem roundtrip_restores_input_witness :
    isImage (List.replicate 28690 0) ∧
    old_payload_end (List.replicate 28690 0) ≤ (List.replicate 28690 (0:Nat)).length ∧
    compose_output (List.replicate 28690 0)
        (List.take (old_payload_end (List.replicate 28690 0)
            - (injection_point (List.replicate 28690 0) + 4))
          (List.drop (injection_point (List.replicate 28690 0) + 4)
            (List.replicate 28690 0)))
      = List.replicate 28690 0 :=
  have h1 : isImage (List.replicate 28690 (0:Nat)) := isImage_replicate_zero 28690
  have h2 : old_payload_end (List.replicate 28690 (0:Nat))
      ≤ (List.replicate 28690 (0:Nat)).length := by
    rw [old_payload_end_replicate, List.length_replicate]
    norm_num
  ⟨h1, h2, roundtrip_restores_input _ h1 h2⟩

/-- C7 (counterexample): on the 3-byte image `[1,2,3]`, every pointer-chain
read exceeds the image bounds, yet nothing fails and an output is still
composed — the whole image followed by the new header and the payload. -/
theorem resolver_never_fails_cex :
    List.length [(1:Nat), 2, 3] < size_field_offset [1, 2, 3] + 4 ∧
    compose_output [1, 2, 3] [5] = [1, 2, 3, 1, 0, 0, 0, 5] := by
  decide

/-- C7 (amended): the resolver performs no bounds or plausibility checks and
never fails: an intermediate read past the end of the image decodes the bytes
that remain (0 when fully out of range), and composition always proceeds —
when the resolved size-field pointer lies at or beyond the end of the image,
the output is the entire input image followed by the new header and the
replacement payload. -/
theorem resolver_total_no_failure (img P : List Nat)
    (h : img.length ≤ UBOOT_pointer_address img) :
    compose_output img P = img ++ toLEBytes 4 ((P.length + 1) / 2) ++ P := by
  have hsz : size img = 0 := by
    rw [size, read_field_of_length_le _ _ _ h]
    rfl
  have hub : img.length ≤ u_boot_pointer_address img := by
    rw [u_boot_pointer_address]
    omega
  have hbl : bl3_size img = 0 := by
    rw [bl3_size, read_field_of_length_le _ _ _ hub]
    rfl
  have hzspv : img.length ≤ zephyr_size_pointer img := by
    rw [zephyr_size_pointer, u_boot_pointer_address, hsz, hbl]
    omega
  have hD : img.length ≤ zephyr_actual_offset img + P.length := by
    rw [zephyr_actual_offset]
    omega
  unfold compose_output
  rw [List.take_of_length_le hzspv, List.drop_eq_nil_of_le hD, List.append_nil]

/-- Witness for C7's amended theorem: on the 3-byte image `[1,2,3]` the
pointer target `0x7000` is far beyond the end, and the output is
`[1,2,3] ++ header ++ payload`. -/
theorem resolver_total_no_failure_witness :
    List.length [(1:Nat), 2, 3] ≤ UBOOT_pointer_address [1, 2, 3] ∧
    compose_output [1, 2, 3] [5]
      = [1, 2, 3] ++ toLEBytes 4 ((List.length [(5:Nat)] + 1) / 2) ++ [5] :=
  ⟨by decide, resolver_total_no_failure [1, 2, 3] [5] (by decide)⟩

/-- C8: the first `injection_point` bytes of the composed output are
byte-identical to the input image whenever `injection_point ≤ len(I)`. -/
theorem output_preserves_prefix (img P : List Nat)
    (h : zephyr_size_pointer img ≤ img.length) :
    List.take (zephyr_size_pointer img) (compose_output img P)
      = List.take (zephyr_size_pointer img) img := by
  unfold compose_output
  rw [List.append_assoc, List.append_assoc, List.take_left']
  rw [List.length_take]
  omega

/-- Witness for C8: prefix preservation on the all-zero 28690-byte image with
payload `[9]`. -/
theorem output_preserves_prefix_witness :
    zephyr_size_pointer (List.replicate 28690 0)
        ≤ (List.replicate 28690 (0:Nat)).length ∧
    List.take (zephyr_size_pointer (List.replicate 28690 0))
        (compose_output (List.replicate 28690 0) [9])
      = List.take (zephyr_size_pointer (List.replicate 28690 0))
          (List.replicate 28690 0) :=
  have h : zephyr_size_pointer (List.replicate 28690 (0:Nat))
      ≤ (List.replicate 28690 (0:Nat)).length := by
    rw [zephyr_size_pointer_replicate, List.length_replicate]
    norm_num
  ⟨h, output_preserves_prefix _ _ h⟩

/-- C9: when `injection_point + 4 + len(P) ≤ len(I)`, the output is
`I[0:injection_point] ++ header ++ P ++ I[injection_point+4+len(P):]` and has
exactly the input's length — the trailing copy offset is determined by
`len(P)`, not by the original payload's stored size field. -/
theorem inplace_overwrite_shape (img P : List Nat)
    (h : zephyr_size_pointer img + 4 + P.length ≤ img.length) :
    compose_output img P
        = List.take (zephyr_size_pointer img) img
            ++ toLEBytes 4 ((P.length + 1) / 2) ++ P
            ++ List.drop (zephyr_size_pointer img + 4 + P.length) img ∧
      (compose_output img P).length = img.length := by
  constructor
  · rfl
  · rw [compose_output_length]
    omega

/-- Witness for C9: on the all-zero 28690-byte image with payload `[9]`, the
replaced region fits and the output's length equals the input's. -/
theorem inplace_overwrite_shape_witness :
    zephyr_size_pointer (List.replicate 28690 0) + 4 + List.length [(9:Nat)]
        ≤ (List.replicate 28690 (0:Nat)).length ∧
    (compose_output (List.replicate 28690 0) [9]
        = List.take (zephyr_size_pointer (List.replicate 28690 0))
              (List.replicate 28690 0)
            ++ toLEBytes 4 ((List.length [(9:Nat)] + 1) / 2) ++ [9]
            ++ List.drop (zephyr_size_pointer (List.replicate 28690 0) + 4
                + List.length [(9:Nat)]) (List.replicate 28690 0) ∧
      (compose_output (List.replicate 28690 0) [9]).length
        = (List.replicate 28690 (0:Nat)).length) :=
  have h : zephyr_size_pointer (List.replicate 28690 (0:Nat)) + 4
        + List.length [(9:Nat)]
      ≤ (List.replicate 28690 (0:Nat)).length := by
    rw [zephyr_size_pointer_replicate, List.length_replicate]
    norm_num
  ⟨h, inplace_overwrite_shape _ _ h⟩

/-- C10: `read_field` is total on out-of-range reads: when
`offset + width > len(image)` it raises no error and returns the
little-endian integer decoded from only the bytes available in
`[offset, len(image))`; in particular, when `offset ≥ len(image)` it
returns 0. -/
theorem read_field_out_of_range_total (img : List Nat) (off sz : Nat)
    (h : img.length < off + sz) :
    read_field img off sz = fromLEBytes (List.drop off img) ∧
      (img.length ≤ off → read_field img off sz = 0) := by
  constructor
  · unfold read_field readBytes
    rw [List.take_of_length_le]
    rw [List.length_drop]
    omega
  · intro h2
    exact read_field_of_length_le img off sz h2

/-- Witness for C10: on the 3-byte image `[1,2,3]`, the 1-byte read at
offset 5 is entirely out of range and returns 0. -/
theorem read_field_out_of_range_total_witness :
    List.length [(1:Nat), 2, 3] < 5 + 1 ∧
    (read_field [1, 2, 3] 5 1 = fromLEBytes (List.drop 5 [1, 2, 3]) ∧
      (List.length [(1:Nat), 2, 3] ≤ 5 → read_field [1, 2, 3] 5 1 = 0)) :=
  ⟨by decide, read_field_out_of_range_total [1, 2, 3] 5 1 (by decide)⟩

end Mgv
